import Mathlib

/-!
Shallow embedding of `model_word_ada/ldnet.py` (LD-Net): the densely
connected RNN stack with layer-wise dropout, consisting of `BasicUnit`
(one layer) and `LDRNN` (the stack).

Modelling conventions:
* a tensor of shape (seq_len, batch_size, features) is a nested list of
  rationals; `torch.cat([a, b], 2)` is pointwise list append on the
  innermost (feature) axis;
* the recurrent cell `self.layer` (an external `torch.nn` module whose
  weights are fixed at construction) is an abstract function
  `Tensor → Option σ → Tensor × σ`; `None` hidden state means
  "initialize fresh", exactly as in torch;
* `F.dropout` (external torch primitive) is an abstract oracle
  `ℚ → Tensor → RNG → Tensor × RNG` threaded through an explicit torch
  RNG stream; per torch's documented contract, `F.dropout` with
  `training=False` returns its input and draws no randomness, so the
  training test is lifted out of the oracle call;
* `random.uniform(0, 1)` draws from an explicit stream `ug : List ℚ` of
  values in [0,1): the draw is the head, the rest is the new stream;
* in-place mutation (of `self.hidden_state` and of the unit list) is
  explicit state passing: `forward` returns the updated unit/stack.
-/

namespace LDNet

/-- A value tensor of shape (seq_len, batch_size, features). -/
abbrev Tensor := List (List (List ℚ))

/-- A stream of random draws. -/
abbrev RNG := List ℚ

/-- `x.size(0)`: the sequence-length axis. -/
def Tensor.size0 (x : Tensor) : ℕ := x.length

/-- `x.size(1)`: the batch axis (length of the first row, as in a
rectangular tensor). -/
def Tensor.size1 (x : Tensor) : ℕ := (x.headD []).length

/-- `torch.cat([a, b], 2)`: concatenation along the feature axis. -/
def cat2 (a b : Tensor) : Tensor :=
  List.zipWith (fun ra rb => List.zipWith (fun va vb => va ++ vb) ra rb) a b

/-- `torch.zeros(s, b, r)`. -/
def zeros3 (s b r : ℕ) : Tensor :=
  List.replicate s (List.replicate b (List.replicate r (0 : ℚ)))

/-- The entry of `x` at timestep `t`, batch index `b` (the feature
vector there), when both indices are in range. -/
def ent (x : Tensor) (t b : ℕ) : Option (List ℚ) :=
  x[t]?.bind (fun row => row[b]?)

/-- `x` is rectangular on the feature axis with width `n`. -/
def featWidth (n : ℕ) (x : Tensor) : Prop :=
  ∀ row ∈ x, ∀ v ∈ row, v.length = n

instance featWidth.dec (n : ℕ) (x : Tensor) : Decidable (featWidth n x) := by
  unfold featWidth; infer_instance

/-- The closed set of supported cell variants, the keys of
`rnnunit_map = {'rnn': nn.RNN, 'lstm': nn.LSTM, 'gru': nn.GRU}`. -/
inductive RnnKind
  | rnn
  | lstm
  | gru

/-- Dictionary lookup `rnnunit_map[unit]`: `none` models the `KeyError`
raised on an unknown key. -/
def rnnunit_map (unit : String) : Option RnnKind :=
  if unit = ("rnn") then some RnnKind.rnn
  else if unit = ("lstm") then some RnnKind.lstm
  else if unit = ("gru") then some RnnKind.gru
  else none

/-- The external recurrent cell: `(input sequence, prior state) ↦
(output sequence, new state)`; `none` prior state means "fresh". -/
abbrev Cell (σ : Type) := Tensor → Option σ → Tensor × σ

/-- Modelled from the spec: `utils.repackage_hidden` (the module
`model_word_ada/utils.py` is not part of the provided sources) strips the
state of gradient/history-tracking linkage, "state is carried as plain
values, not as a differentiable chain".  On plain values this is the
identity: the value content is unchanged, only autograd linkage (which
has no counterpart in a value-level model) is removed. -/
def repackage_hidden {σ : Type} (h : σ) : σ := h

/-- One layer of the stack (`class BasicUnit`).  `cell` is the external
recurrent module `self.layer`, with its weights (including the
`utils.init_lstm` initialization applied for the lstm variant) baked in
at construction.  `training` is the `nn.Module` mode flag. -/
structure BasicUnit (σ : Type) where
  unit_type : String
  cell : Cell σ
  layer_drop : ℚ
  droprate : ℚ
  input_dim : ℕ
  increase_rate : ℕ
  output_dim : ℕ
  hidden_state : Option σ
  training : Bool

/-- `BasicUnit.__init__`: fails (Python `KeyError`) exactly when the
variant name is not a key of `rnnunit_map`.  `mkCell` stands for the
torch constructor `rnnunit_map[unit](input_dim, increase_rate, 1)`
(plus, for lstm, the `utils.init_lstm` weight initialization). -/
def BasicUnit.init {σ : Type} (unit : String) (mkCell : RnnKind → ℕ → ℕ → Cell σ)
    (input_dim increase_rate : ℕ) (droprate layer_drop : ℚ) :
    Option (BasicUnit σ) :=
  match rnnunit_map unit with
  | none => none
  | some k =>
    some { unit_type := unit
           cell := mkCell k input_dim increase_rate
           layer_drop := layer_drop
           droprate := droprate
           input_dim := input_dim
           increase_rate := increase_rate
           output_dim := input_dim + increase_rate
           hidden_state := none
           training := true }

/-- `BasicUnit.init_hidden`: reset the persistent state to the
"no prior state" sentinel. -/
def BasicUnit.init_hidden {σ : Type} (u : BasicUnit σ) : BasicUnit σ :=
  { u with hidden_state := none }

/-- Step 1 of `BasicUnit.forward`: `new_x = F.dropout(x, p=self.droprate,
training=self.training) if self.droprate > 0 else x`.  The oracle is
consulted only when `droprate > 0` (the code's test) and the unit is in
training mode (torch's `F.dropout` contract: identity, no draw, when
`training=False`). -/
def dropInput {σ : Type} (u : BasicUnit σ) (fdrop : ℚ → Tensor → RNG → Tensor × RNG)
    (x : Tensor) (tg : RNG) : Tensor × RNG :=
  if 0 < u.droprate then
    (if u.training then fdrop u.droprate x tg else (x, tg))
  else (x, tg)

/-- The result of one `BasicUnit.forward` call: the two returned streams
(`d_out`, `o_out`), the mutated unit, and the two RNG streams (torch's,
for `F.dropout`, and Python's `random`, for the layer-drop draw). -/
structure UnitStep (σ : Type) where
  d_out : Tensor
  o_out : Tensor
  unit : BasicUnit σ
  tg : RNG
  ug : RNG

/-- `BasicUnit.forward(x, p_out)`.  `out.contiguous()` and `.cuda()` are
value-level identities and are omitted.  The layer-drop draw
`random.uniform(0, 1)` is consumed only in training mode (Python's
`and` short-circuits). -/
def BasicUnit.forward {σ : Type} (u : BasicUnit σ)
    (fdrop : ℚ → Tensor → RNG → Tensor × RNG)
    (x p_out : Tensor) (tg ug : RNG) : UnitStep σ :=
  let dres := dropInput u fdrop x tg
  let cres := u.cell dres.1 u.hidden_state
  let out := cres.1
  let u1 : BasicUnit σ := { u with hidden_state := some (repackage_hidden cres.2) }
  let lres :=
    if u.training then
      (if ug.headD 0 < u.layer_drop then
        (zeros3 (Tensor.size0 x) (Tensor.size1 x) u.increase_rate, ug.tail)
      else (out, ug.tail))
    else (out, ug)
  { d_out := cat2 x lres.1
    o_out := cat2 p_out out
    unit := u1
    tg := dres.2
    ug := lres.2 }

/-- The stack (`class LDRNN`).  `self.layer` (the `nn.ModuleList`
aliasing `layer_list`, or `None` when `layer_num = 0`) is the derived
view `LDRNN.layer` below. -/
structure LDRNN (σ : Type) where
  unit_type : String
  layer_list : List (BasicUnit σ)
  layer_num : ℕ
  output_dim : ℕ
  emb_dim : ℕ

/-- `self.layer = nn.ModuleList(self.layer_list) if layer_num > 0 else
None`: a view of the same units. -/
def LDRNN.layer {σ : Type} (m : LDRNN σ) : Option (List (BasicUnit σ)) :=
  if 0 < m.layer_num then some m.layer_list else none

/-- `LDRNN.__init__`: builds `layer_list = [BasicUnit(unit,
emb_dim + i*hid_dim, hid_dim, droprate, layer_drop) for i in
range(layer_num)]` (failing, like the comprehension, as soon as one
`BasicUnit` constructor fails), sets `output_dim` to the last layer's
`output_dim` (or `emb_dim` when `layer_num = 0`), and calls
`init_hidden` (a no-op here: every fresh unit already has `none`
state). -/
def LDRNN.init {σ : Type} (layer_num : ℕ) (unit : String)
    (mkCell : RnnKind → ℕ → ℕ → Cell σ) (emb_dim hid_dim : ℕ)
    (droprate layer_drop : ℚ) : Option (LDRNN σ) :=
  match (List.range layer_num).mapM
      (fun i => BasicUnit.init unit mkCell (emb_dim + i * hid_dim) hid_dim
        droprate layer_drop) with
  | none => none
  | some ll =>
    some { unit_type := unit
           layer_list := ll
           layer_num := layer_num
           output_dim :=
             if 0 < layer_num then
               (match ll.getLast? with
                | some u => u.output_dim
                | none => 0)
             else emb_dim
           emb_dim := emb_dim }

/-- Primitive values appearing in the `to_params` dictionary. -/
inductive PVal
  | s (v : String)
  | n (v : ℕ)
  | q (v : ℚ)
  | b (v : Bool)
deriving DecidableEq

/-- `LDRNN.to_params`: `none` models the exception raised when
`self.layer` is `None` (`layer_num = 0`: `self.layer[0]` on `None`) or
empty (`IndexError`, unreachable for constructed stacks). -/
def LDRNN.to_params {σ : Type} (m : LDRNN σ) : Option (List (String × PVal)) :=
  match m.layer with
  | none => none
  | some l =>
    match l[0]? with
    | none => none
    | some u0 =>
      some [("rnn_type", PVal.s ("LDRNN")),
            ("unit_type", PVal.s u0.unit_type),
            ("layer_num", PVal.n l.length),
            ("emb_dim", PVal.n u0.input_dim),
            ("hid_dim", PVal.n u0.increase_rate),
            ("droprate", PVal.q u0.droprate),
            ("after_pruned", PVal.b false)]

/-- `LDRNN.init_hidden`: `for tup in self.layer_list: tup.init_hidden()`. -/
def LDRNN.init_hidden {σ : Type} (m : LDRNN σ) : LDRNN σ :=
  { m with layer_list := m.layer_list.map BasicUnit.init_hidden }

/-- The result of threading the dense/projection streams through a list
of layers. -/
structure StackStep (σ : Type) where
  x : Tensor
  output : Tensor
  units : List (BasicUnit σ)
  tg : RNG
  ug : RNG

/-- The loop body of `LDRNN.forward`:
`for ind in range(self.layer_num): x, output = self.layer_list[ind](x, output)`.
`layer_num` always equals `len(layer_list)` (both are set once, from the
same comprehension, in `__init__` and never reassigned), so the loop is
recursion over `layer_list`. -/
def runLayers {σ : Type} (fdrop : ℚ → Tensor → RNG → Tensor × RNG) :
    List (BasicUnit σ) → Tensor → Tensor → RNG → RNG → StackStep σ
  | [], x, output, tg, ug =>
    { x := x, output := output, units := [], tg := tg, ug := ug }
  | u :: rest, x, output, tg, ug =>
    let s := u.forward fdrop x output tg ug
    let r := runLayers fdrop rest s.d_out s.o_out s.tg s.ug
    { r with units := s.unit :: r.units }

/-- The result of one `LDRNN.forward` call: the projection output, the
mutated stack, and the two RNG streams. -/
structure StackOut (σ : Type) where
  output : Tensor
  stack : LDRNN σ
  tg : RNG
  ug : RNG

/-- `LDRNN.forward(x)`: `output = x`, thread every layer, return the
final projection stream (the dense stream is discarded). -/
def LDRNN.forward {σ : Type} (m : LDRNN σ)
    (fdrop : ℚ → Tensor → RNG → Tensor × RNG)
    (x : Tensor) (tg ug : RNG) : StackOut σ :=
  let r := runLayers fdrop m.layer_list x x tg ug
  { output := r.output
    stack := { m with layer_list := r.units }
    tg := r.tg
    ug := r.ug }

/-! ### Derived definitions and concrete instances -/

/-- The unit produced by a successful `BasicUnit.__init__`. -/
def builtUnit {σ : Type} (unit : String) (k : RnnKind)
    (mkCell : RnnKind → ℕ → ℕ → Cell σ) (input_dim increase_rate : ℕ)
    (droprate layer_drop : ℚ) : BasicUnit σ :=
  { unit_type := unit
    cell := mkCell k input_dim increase_rate
    layer_drop := layer_drop
    droprate := droprate
    input_dim := input_dim
    increase_rate := increase_rate
    output_dim := input_dim + increase_rate
    hidden_state := none
    training := true }

/-- The layer list produced by a successful `LDRNN.__init__`. -/
def builtLayers {σ : Type} (layer_num : ℕ) (unit : String) (k : RnnKind)
    (mkCell : RnnKind → ℕ → ℕ → Cell σ) (emb_dim hid_dim : ℕ)
    (droprate layer_drop : ℚ) : List (BasicUnit σ) :=
  (List.range layer_num).map
    (fun i => builtUnit unit k mkCell (emb_dim + i * hid_dim) hid_dim droprate layer_drop)

/-- `p` refines `x` entrywise: wherever `p` has an entry, `x` has one,
and `p`'s entry extends `x`'s entry on the feature axis. -/
def extendsInput (x p : Tensor) : Prop :=
  ∀ t b v, ent p t b = some v → ∃ xv rest, ent x t b = some xv ∧ v = xv ++ rest

/-- The stack produced by `LDRNN.__init__` with `layer_num = 0`. -/
def zeroStack {σ : Type} (unit : String) (E : ℕ) : LDRNN σ :=
  { unit_type := unit
    layer_list := []
    layer_num := 0
    output_dim := E
    emb_dim := E }

/-- A trivial stateless cell, used for concrete instantiations. -/
def exCellU : RnnKind → ℕ → ℕ → Cell Unit :=
  fun _ _ _ => fun x _ => (x, ())

/-- A marker cell (state type ℚ): its output is the 1×1×1 tensor
holding the current state value (0 when fresh), and the new state is
the constant 1 — it makes state carry across forward calls
observable. -/
def demoCell : Cell ℚ :=
  fun _ h => ([[[h.getD 0]]], 1)

/-- Cell builder that ignores the variant and widths. -/
def demoMk : RnnKind → ℕ → ℕ → Cell ℚ :=
  fun _ _ _ => demoCell

/-- A dropout oracle acting as the identity (valid at `p = 0`). -/
def demoFdrop : ℚ → Tensor → RNG → Tensor × RNG :=
  fun _ x g => (x, g)

/-- A dropout oracle that destroys its input, used to show that
evaluation-mode runs never consult the oracle. -/
def junkFdrop : ℚ → Tensor → RNG → Tensor × RNG :=
  fun _ _ g => ([], g)

/-- A concrete 1×1×1 input tensor. -/
def demoX : Tensor := [[[5]]]

/-- The stack built by `LDRNN.init 1 "rnn" demoMk 1 1 0 0`. -/
def demoStack : LDRNN ℚ :=
  { unit_type := "rnn"
    layer_list := [builtUnit ("rnn") RnnKind.rnn demoMk 1 1 0 0]
    layer_num := 1
    output_dim := 2
    emb_dim := 1 }

/-- The stack built by `LDRNN.init 2 "rnn" exCellU 4 3 0 0`. -/
def exStack2 : LDRNN Unit :=
  { unit_type := "rnn"
    layer_list := [builtUnit ("rnn") RnnKind.rnn exCellU 4 3 0 0,
                   builtUnit ("rnn") RnnKind.rnn exCellU 7 3 0 0]
    layer_num := 2
    output_dim := 10
    emb_dim := 4 }

/-- The stack built by `LDRNN.init 0 "rnn" exCellU 4 3 0 0`
(zero layers). -/
def exStack0 : LDRNN Unit :=
  { unit_type := "rnn"
    layer_list := []
    layer_num := 0
    output_dim := 4
    emb_dim := 4 }

/-- The stack built by `LDRNN.init 1 "rnn" exCellU 4 3 (1/2) 0`. -/
def exStack1 : LDRNN Unit :=
  { unit_type := "rnn"
    layer_list := [builtUnit ("rnn") RnnKind.rnn exCellU 4 3 (1/2) 0]
    layer_num := 1
    output_dim := 7
    emb_dim := 4 }

/-- A single layer in training mode with layer-drop probability 1. -/
def exU2 : BasicUnit Unit :=
  { unit_type := "rnn"
    cell := exCellU RnnKind.rnn 1 1
    layer_drop := 1
    droprate := 0
    input_dim := 1
    increase_rate := 1
    output_dim := 2
    hidden_state := none
    training := true }

/-- A single layer in evaluation mode with all dropout off. -/
def evalUnit : BasicUnit Unit :=
  { unit_type := "rnn"
    cell := exCellU RnnKind.rnn 1 1
    layer_drop := 0
    droprate := 0
    input_dim := 1
    increase_rate := 1
    output_dim := 2
    hidden_state := none
    training := false }

/-- A one-layer stack in evaluation mode with all dropout off. -/
def evalStack : LDRNN Unit :=
  { unit_type := "rnn"
    layer_list := [evalUnit]
    layer_num := 1
    output_dim := 2
    emb_dim := 1 }

/-! ### Helper lemmas -/

theorem mapM_option_map {α β : Type} (f : α → Option β) (g : α → β)
    (h : ∀ a, f a = some (g a)) :
    ∀ l : List α, l.mapM f = some (l.map g)
  | [] => rfl
  | a :: l => by
    rw [List.mapM_cons, h a, mapM_option_map f g h l]
    rfl

theorem basicUnit_init_eq_some {σ : Type} {unit : String} {k : RnnKind}
    (mkCell : RnnKind → ℕ → ℕ → Cell σ) (input_dim increase_rate : ℕ)
    (droprate layer_drop : ℚ) (hk : rnnunit_map unit = some k) :
    BasicUnit.init unit mkCell input_dim increase_rate droprate layer_drop
      = some (builtUnit unit k mkCell input_dim increase_rate droprate layer_drop) := by
  unfold BasicUnit.init builtUnit
  rw [hk]

theorem basicUnit_init_eq_none {σ : Type} {unit : String}
    (mkCell : RnnKind → ℕ → ℕ → Cell σ) (input_dim increase_rate : ℕ)
    (droprate layer_drop : ℚ) (hk : rnnunit_map unit = none) :
    BasicUnit.init (σ := σ) unit mkCell input_dim increase_rate droprate layer_drop
      = none := by
  unfold BasicUnit.init
  rw [hk]

theorem ldrnn_init_eq_some {σ : Type} {unit : String} {k : RnnKind}
    (layer_num : ℕ) (mkCell : RnnKind → ℕ → ℕ → Cell σ) (emb_dim hid_dim : ℕ)
    (droprate layer_drop : ℚ) (hk : rnnunit_map unit = some k) :
    LDRNN.init layer_num unit mkCell emb_dim hid_dim droprate layer_drop
      = some { unit_type := unit
               layer_list := builtLayers layer_num unit k mkCell emb_dim hid_dim droprate layer_drop
               layer_num := layer_num
               output_dim := emb_dim + layer_num * hid_dim
               emb_dim := emb_dim } := by
  unfold LDRNN.init
  rw [mapM_option_map _ _ (fun i => basicUnit_init_eq_some mkCell _ hid_dim droprate layer_drop hk)]
  have hout : (if 0 < layer_num then
      (match (builtLayers layer_num unit k mkCell emb_dim hid_dim droprate layer_drop).getLast? with
       | some u => u.output_dim
       | none => 0)
    else emb_dim) = emb_dim + layer_num * hid_dim := by
    rcases layer_num with _ | n
    · simp
    · have hlast : (builtLayers (n + 1) unit k mkCell emb_dim hid_dim droprate layer_drop).getLast?
          = some (builtUnit unit k mkCell (emb_dim + n * hid_dim) hid_dim droprate layer_drop) := by
        unfold builtLayers
        rw [List.range_succ, List.map_append]
        exact List.getLast?_concat _
      rw [hlast]
      simp [builtUnit, Nat.succ_mul]
      ring
  simp only [builtLayers]
  rw [← hout]
  rfl

theorem ldrnn_init_eq_none {σ : Type} {unit : String} (layer_num : ℕ)
    (mkCell : RnnKind → ℕ → ℕ → Cell σ) (emb_dim hid_dim : ℕ)
    (droprate layer_drop : ℚ) (hk : rnnunit_map unit = none) (hL : 0 < layer_num) :
    LDRNN.init (σ := σ) layer_num unit mkCell emb_dim hid_dim droprate layer_drop = none := by
  rcases layer_num with _ | n
  · exact absurd hL (by simp)
  · unfold LDRNN.init
    rw [List.range_succ_eq_map]
    rw [List.mapM_cons]
    rw [basicUnit_init_eq_none mkCell _ hid_dim droprate layer_drop hk]
    rfl

theorem forward_unit_eq {σ : Type} (u : BasicUnit σ)
    (fdrop : ℚ → Tensor → RNG → Tensor × RNG) (x p_out : Tensor) (tg ug : RNG) :
    (u.forward fdrop x p_out tg ug).unit
      = { u with hidden_state :=
            (some (repackage_hidden (u.cell (dropInput u fdrop x tg).1 u.hidden_state).2)) } :=
  rfl

theorem forward_tg_eq {σ : Type} (u : BasicUnit σ)
    (fdrop : ℚ → Tensor → RNG → Tensor × RNG) (x p_out : Tensor) (tg ug : RNG) :
    (u.forward fdrop x p_out tg ug).tg = (dropInput u fdrop x tg).2 :=
  rfl

theorem forward_ug_eq {σ : Type} (u : BasicUnit σ)
    (fdrop : ℚ → Tensor → RNG → Tensor × RNG) (x p_out : Tensor) (tg ug : RNG) :
    (u.forward fdrop x p_out tg ug).ug = if u.training then ug.tail else ug := by
  unfold BasicUnit.forward
  cases h : u.training <;> simp [h]
  split <;> rfl

theorem forward_o_out_eq {σ : Type} (u : BasicUnit σ)
    (fdrop : ℚ → Tensor → RNG → Tensor × RNG) (x p_out : Tensor) (tg ug : RNG) :
    (u.forward fdrop x p_out tg ug).o_out
      = cat2 p_out (u.cell (dropInput u fdrop x tg).1 u.hidden_state).1 :=
  rfl

theorem init_hidden_of_none {σ : Type} (u : BasicUnit σ)
    (h : u.hidden_state = none) : u.init_hidden = u := by
  rcases u with ⟨ut, c, ldp, dp, idim, ir, od, hs, tr⟩
  simp only at h
  subst h
  rfl

theorem forward_unit_init_hidden {σ : Type} (u : BasicUnit σ)
    (fdrop : ℚ → Tensor → RNG → Tensor × RNG) (x p_out : Tensor) (tg ug : RNG) :
    ((u.forward fdrop x p_out tg ug).unit).init_hidden = u.init_hidden := by
  rw [forward_unit_eq]
  rcases u with ⟨ut, c, ldp, dp, idim, ir, od, hs, tr⟩
  rfl

theorem runLayers_units_init_hidden {σ : Type}
    (fdrop : ℚ → Tensor → RNG → Tensor × RNG) :
    ∀ (ls : List (BasicUnit σ)) (x output : Tensor) (tg ug : RNG),
      (runLayers fdrop ls x output tg ug).units.map BasicUnit.init_hidden
        = ls.map BasicUnit.init_hidden
  | [], _, _, _, _ => rfl
  | u :: rest, x, output, tg, ug => by
    simp only [runLayers, List.map_cons]
    rw [forward_unit_init_hidden,
      runLayers_units_init_hidden fdrop rest _ _ _ _]

theorem forward_eval {σ : Type} (u : BasicUnit σ) (ht : u.training = false)
    (hd : u.droprate = 0) (fdrop : ℚ → Tensor → RNG → Tensor × RNG)
    (x p_out : Tensor) (tg ug : RNG) :
    u.forward fdrop x p_out tg ug
      = { d_out := cat2 x (u.cell x u.hidden_state).1
          o_out := cat2 p_out (u.cell x u.hidden_state).1
          unit := { u with hidden_state :=
            (some (repackage_hidden (u.cell x u.hidden_state).2)) }
          tg := tg
          ug := ug } := by
  unfold BasicUnit.forward dropInput
  simp [ht, hd]

theorem runLayers_eval {σ : Type} :
    ∀ (ls : List (BasicUnit σ)),
      (∀ u ∈ ls, u.training = false ∧ u.droprate = 0) →
      ∀ (x p : Tensor) (tg ug tg' ug' : RNG)
        (fdrop fdrop' : ℚ → Tensor → RNG → Tensor × RNG),
        (runLayers fdrop ls x p tg ug).x = (runLayers fdrop' ls x p tg' ug').x ∧
        (runLayers fdrop ls x p tg ug).output = (runLayers fdrop' ls x p tg' ug').output ∧
        (runLayers fdrop ls x p tg ug).units = (runLayers fdrop' ls x p tg' ug').units ∧
        (runLayers fdrop ls x p tg ug).tg = tg ∧
        (runLayers fdrop ls x p tg ug).ug = ug
  | [], _, x, p, tg, ug, tg', ug', fdrop, fdrop' => by
    simp [runLayers]
  | u :: rest, h, x, p, tg, ug, tg', ug', fdrop, fdrop' => by
    have hu := h u (List.mem_cons_self u rest)
    have hrest : ∀ v ∈ rest, v.training = false ∧ v.droprate = 0 :=
      fun v hv => h v (List.mem_cons_of_mem u hv)
    have ih := runLayers_eval rest hrest
    simp only [runLayers]
    rw [forward_eval u hu.1 hu.2 fdrop x p tg ug,
      forward_eval u hu.1 hu.2 fdrop' x p tg' ug']
    exact ⟨(ih _ _ tg ug tg' ug' fdrop fdrop').1,
      (ih _ _ tg ug tg' ug' fdrop fdrop').2.1,
      by rw [(ih _ _ tg ug tg' ug' fdrop fdrop').2.2.1],
      (ih _ _ tg ug tg' ug' fdrop fdrop').2.2.2.1,
      (ih _ _ tg ug tg' ug' fdrop fdrop').2.2.2.2⟩

theorem ent_cat2 {p q : Tensor} {t b : ℕ} {v : List ℚ}
    (h : ent (cat2 p q) t b = some v) :
    ∃ pv qv, ent p t b = some pv ∧ ent q t b = some qv ∧ v = pv ++ qv := by
  unfold ent cat2 at h
  unfold ent
  rw [List.getElem?_zipWith] at h
  cases hp : p[t]? with
  | none =>
    rw [hp] at h
    cases hq : q[t]? <;> rw [hq] at h <;> simp at h
  | some rp =>
    rw [hp] at h
    cases hq : q[t]? with
    | none => rw [hq] at h; simp at h
    | some rq =>
      rw [hq] at h
      simp only [Option.some_bind] at h
      rw [List.getElem?_zipWith] at h
      cases hpb : rp[b]? with
      | none =>
        rw [hpb] at h
        cases hqb : rq[b]? <;> rw [hqb] at h <;> simp at h
      | some pv =>
        rw [hpb] at h
        cases hqb : rq[b]? with
        | none => rw [hqb] at h; simp at h
        | some qv =>
          rw [hqb] at h
          simp only [Option.some.injEq] at h
          exact ⟨pv, qv, by simp [hp, hpb], by simp [hq, hqb], h.symm⟩

theorem extendsInput_refl (x : Tensor) : extendsInput x x :=
  fun _ _ v h => ⟨v, [], h, (List.append_nil v).symm⟩

theorem extendsInput_cat2 {x p q : Tensor} (h : extendsInput x p) :
    extendsInput x (cat2 p q) := by
  intro t b v hv
  obtain ⟨pv, qv, hp, hq, rfl⟩ := ent_cat2 hv
  obtain ⟨xv, rest, hx, rfl⟩ := h t b pv hp
  exact ⟨xv, rest ++ qv, hx, List.append_assoc _ _ _⟩

theorem runLayers_extends {σ : Type} (fdrop : ℚ → Tensor → RNG → Tensor × RNG)
    (x0 : Tensor) :
    ∀ (ls : List (BasicUnit σ)) (x p : Tensor) (tg ug : RNG),
      extendsInput x0 p → extendsInput x0 (runLayers fdrop ls x p tg ug).output
  | [], _, _, _, _, h => h
  | u :: rest, x, p, tg, ug, h => by
    simp only [runLayers]
    apply runLayers_extends fdrop x0 rest _ _ _ _
    rw [forward_o_out_eq]
    exact extendsInput_cat2 h

theorem init_layer_hidden_none {σ : Type} {L : ℕ} {unit : String}
    {mkCell : RnnKind → ℕ → ℕ → Cell σ} {E H : ℕ} {dr ld : ℚ} {m : LDRNN σ}
    (hm : LDRNN.init L unit mkCell E H dr ld = some m) :
    ∀ u ∈ m.layer_list, u.hidden_state = none := by
  cases hk : rnnunit_map unit with
  | none =>
    rcases L with _ | n
    · have h2 : (zeroStack unit E : LDRNN σ) = m := Option.some.inj hm
      subst h2
      simp [zeroStack]
    · rw [ldrnn_init_eq_none (n + 1) mkCell E H dr ld hk (Nat.succ_pos n)] at hm
      exact absurd hm (by simp)
  | some k =>
    rw [ldrnn_init_eq_some L mkCell E H dr ld hk] at hm
    have h2 := Option.some.inj hm
    subst h2
    intro u hu
    simp only [builtLayers, List.mem_map] at hu
    obtain ⟨i, _, rfl⟩ := hu
    rfl

theorem map_init_hidden_self {σ : Type} :
    ∀ (ls : List (BasicUnit σ)), (∀ u ∈ ls, u.hidden_state = none) →
      ls.map BasicUnit.init_hidden = ls
  | [], _ => rfl
  | u :: rest, h => by
    rw [List.map_cons,
      init_hidden_of_none u (h u (List.mem_cons_self u rest)),
      map_init_hidden_self rest (fun v hv => h v (List.mem_cons_of_mem u hv))]

/-! ### Claims -/

/-- Claim C1: for every layer count `L ≥ 0` and growth width `H`, a
Stack constructed with embedding width `E` has final output feature
width `E + L*H` (so `E` when `L = 0`); each Layer Unit's output width
equals its input width plus the growth width, and layer `i` is
constructed with input width `E + i*H`. -/
theorem claim_C1 {σ : Type} (L : ℕ) (unit : String)
    (mkCell : RnnKind → ℕ → ℕ → Cell σ) (E H : ℕ) (dr ld : ℚ) (m : LDRNN σ)
    (hm : LDRNN.init L unit mkCell E H dr ld = some m) :
    m.output_dim = E + L * H ∧ (L = 0 → m.output_dim = E) ∧
    m.layer_list.length = L ∧
    ∀ (i : ℕ) (hi : i < m.layer_list.length),
      (m.layer_list.get ⟨i, hi⟩).input_dim = E + i * H ∧
      (m.layer_list.get ⟨i, hi⟩).increase_rate = H ∧
      (m.layer_list.get ⟨i, hi⟩).output_dim
        = (m.layer_list.get ⟨i, hi⟩).input_dim
            + (m.layer_list.get ⟨i, hi⟩).increase_rate := by
  cases hk : rnnunit_map unit with
  | none =>
    rcases L with _ | n
    · have h2 : (zeroStack unit E : LDRNN σ) = m := Option.some.inj hm
      subst h2
      refine ⟨by simp [zeroStack], fun _ => rfl, rfl, ?_⟩
      intro i hi
      exact absurd hi (by simp [zeroStack])
    · rw [ldrnn_init_eq_none (n + 1) mkCell E H dr ld hk (Nat.succ_pos n)] at hm
      exact absurd hm (by simp)
  | some k =>
    rw [ldrnn_init_eq_some L mkCell E H dr ld hk] at hm
    have h2 := Option.some.inj hm
    subst h2
    refine ⟨rfl, fun hL => by simp [hL], by simp [builtLayers], ?_⟩
    intro i hi
    have hi2 : i < L := by simpa [builtLayers] using hi
    simp [builtLayers, builtUnit, List.getElem_map]

/-- Witness for C1 at `L = 2`, `E = 4`, `H = 3`. -/
theorem claim_C1_witness :
    LDRNN.init 2 ("rnn") exCellU 4 3 (0 : ℚ) 0 = some exStack2 ∧
    (exStack2.output_dim = 4 + 2 * 3 ∧ (2 = 0 → exStack2.output_dim = 4) ∧
     exStack2.layer_list.length = 2 ∧
     ∀ (i : ℕ) (hi : i < exStack2.layer_list.length),
       (exStack2.layer_list.get ⟨i, hi⟩).input_dim = 4 + i * 3 ∧
       (exStack2.layer_list.get ⟨i, hi⟩).increase_rate = 3 ∧
       (exStack2.layer_list.get ⟨i, hi⟩).output_dim
         = (exStack2.layer_list.get ⟨i, hi⟩).input_dim
             + (exStack2.layer_list.get ⟨i, hi⟩).increase_rate) :=
  ⟨rfl, claim_C1 2 ("rnn") exCellU 4 3 0 0 exStack2 rfl⟩

/-- Claim C2: with layer-drop probability 1 in training mode, the dense
output is the input concatenated with an all-zero tensor of shape
(seq_len, batch_size, growth_width), while the projection output is the
incoming projection concatenated with the un-zeroed raw cell output.
The hypothesis `ug.headD 0 < 1` is the `random.uniform(0, 1) ∈ [0, 1)`
contract on the consumed draw. -/
theorem claim_C2 {σ : Type} (u : BasicUnit σ)
    (fdrop : ℚ → Tensor → RNG → Tensor × RNG) (x p_out : Tensor) (tg ug : RNG)
    (ht : u.training = true) (hl : u.layer_drop = 1) (hu : ug.headD 0 < 1) :
    (u.forward fdrop x p_out tg ug).d_out
      = cat2 x (zeros3 (Tensor.size0 x) (Tensor.size1 x) u.increase_rate) ∧
    (u.forward fdrop x p_out tg ug).o_out
      = cat2 p_out (u.cell (dropInput u fdrop x tg).1 u.hidden_state).1 := by
  unfold BasicUnit.forward
  have hu2 : (ug.head?).getD 0 < 1 := by
    cases ug
    · norm_num
    · simpa using hu
  simp [ht, hl, hu2]

/-- Witness for C2 on a concrete training-mode unit with
`layer_drop = 1`. -/
theorem claim_C2_witness :
    exU2.training = true ∧ exU2.layer_drop = 1 ∧ (List.headD ([] : RNG) 0) < 1 ∧
    ((exU2.forward demoFdrop demoX demoX [] []).d_out
       = cat2 demoX (zeros3 (Tensor.size0 demoX) (Tensor.size1 demoX) exU2.increase_rate) ∧
     (exU2.forward demoFdrop demoX demoX [] []).o_out
       = cat2 demoX (exU2.cell (dropInput exU2 demoFdrop demoX []).1 exU2.hidden_state).1) :=
  ⟨rfl, rfl, by norm_num,
   claim_C2 exU2 demoFdrop demoX demoX [] [] rfl rfl (by norm_num)⟩

/-- Claim C3: a Stack constructed with layer count 0 returns its input
unchanged (identity passthrough); its state and the RNG streams are
untouched. -/
theorem claim_C3 {σ : Type} (unit : String) (mkCell : RnnKind → ℕ → ℕ → Cell σ)
    (E H : ℕ) (dr ld : ℚ) (m : LDRNN σ)
    (hm : LDRNN.init 0 unit mkCell E H dr ld = some m)
    (fdrop : ℚ → Tensor → RNG → Tensor × RNG) (x : Tensor) (tg ug : RNG) :
    m.forward fdrop x tg ug = { output := x, stack := m, tg := tg, ug := ug } := by
  have h2 : (zeroStack unit E : LDRNN σ) = m := Option.some.inj hm
  subst h2
  rfl

/-- Witness for C3 on a concrete zero-layer stack. -/
theorem claim_C3_witness :
    LDRNN.init 0 ("rnn") exCellU 4 3 (0 : ℚ) 0 = some exStack0 ∧
    exStack0.forward junkFdrop demoX [1/2] [1/2]
      = { output := demoX, stack := exStack0, tg := [1/2], ug := [1/2] } :=
  ⟨rfl, claim_C3 ("rnn") exCellU 4 3 0 0 exStack0 rfl junkFdrop demoX [1/2] [1/2]⟩

/-- Claim C4: `reset_state()` (`init_hidden`) followed by `forward`
equals `forward` on a freshly constructed Stack with identical weights
(the stack that `init` built), for any input; and without the reset the
second call depends on the first call's persistent state (witnessed by a
concrete counting cell where the two disagree). -/
theorem claim_C4 {σ : Type} (L : ℕ) (unit : String)
    (mkCell : RnnKind → ℕ → ℕ → Cell σ) (E H : ℕ) (dr ld : ℚ) (m0 : LDRNN σ)
    (hm : LDRNN.init L unit mkCell E H dr ld = some m0)
    (fdrop1 fdrop2 : ℚ → Tensor → RNG → Tensor × RNG)
    (x1 x2 : Tensor) (tg1 ug1 tg ug : RNG) :
    (((m0.forward fdrop1 x1 tg1 ug1).stack.init_hidden).forward fdrop2 x2 tg ug
       = m0.forward fdrop2 x2 tg ug) ∧
    (LDRNN.init 1 ("rnn") demoMk 1 1 (0 : ℚ) 0 = some demoStack ∧
     ((demoStack.forward demoFdrop demoX [] []).stack.forward demoFdrop demoX [] []).output
       ≠ (demoStack.forward demoFdrop demoX [] []).output) := by
  constructor
  · have hkey : (m0.forward fdrop1 x1 tg1 ug1).stack.init_hidden = m0 := by
      have h3 := runLayers_units_init_hidden fdrop1 m0.layer_list x1 x1 tg1 ug1
      have h4 := map_init_hidden_self m0.layer_list (init_layer_hidden_none hm)
      show ({ m0 with layer_list := ((runLayers fdrop1 m0.layer_list x1 x1 tg1 ug1).units.map BasicUnit.init_hidden) } : LDRNN σ) = m0
      rw [h3, h4]
    rw [hkey]
  · exact ⟨rfl, by decide⟩

/-- Witness for C4 on the concrete one-layer counting-cell stack. -/
theorem claim_C4_witness :
    LDRNN.init 1 ("rnn") demoMk 1 1 (0 : ℚ) 0 = some demoStack ∧
    ((((demoStack.forward demoFdrop demoX [] []).stack.init_hidden).forward demoFdrop demoX [] []
        = demoStack.forward demoFdrop demoX [] []) ∧
     (LDRNN.init 1 ("rnn") demoMk 1 1 (0 : ℚ) 0 = some demoStack ∧
      ((demoStack.forward demoFdrop demoX [] []).stack.forward demoFdrop demoX [] []).output
        ≠ (demoStack.forward demoFdrop demoX [] []).output)) :=
  ⟨rfl, claim_C4 1 ("rnn") demoMk 1 1 0 0 demoStack rfl demoFdrop demoFdrop
    demoX demoX [] [] [] []⟩

/-- Claim C5: with feature dropout 0 and layer-drop 0 in evaluation
mode, `forward` is a pure function of the input: the result does not
depend on the dropout oracle or on either RNG stream, and both streams
are returned unconsumed. -/
theorem claim_C5 {σ : Type} (m : LDRNN σ)
    (h : ∀ u ∈ m.layer_list, u.training = false ∧ u.droprate = 0 ∧ u.layer_drop = 0)
    (fdrop fdrop' : ℚ → Tensor → RNG → Tensor × RNG) (x : Tensor)
    (tg ug tg' ug' : RNG) :
    (m.forward fdrop x tg ug).output = (m.forward fdrop' x tg' ug').output ∧
    (m.forward fdrop x tg ug).stack = (m.forward fdrop' x tg' ug').stack ∧
    (m.forward fdrop x tg ug).tg = tg ∧
    (m.forward fdrop x tg ug).ug = ug := by
  have h2 : ∀ u ∈ m.layer_list, u.training = false ∧ u.droprate = 0 :=
    fun u hu => ⟨(h u hu).1, (h u hu).2.1⟩
  have hr := runLayers_eval m.layer_list h2 x x tg ug tg' ug' fdrop fdrop'
  refine ⟨hr.2.1, ?_, hr.2.2.2.1, hr.2.2.2.2⟩
  show ({ m with layer_list := (runLayers fdrop m.layer_list x x tg ug).units } : LDRNN σ)
    = { m with layer_list := (runLayers fdrop' m.layer_list x x tg' ug').units }
  rw [hr.2.2.1]

/-- Witness for C5 on a concrete evaluation-mode stack, with two
unrelated oracles and streams. -/
theorem claim_C5_witness :
    (∀ u ∈ evalStack.layer_list,
       u.training = false ∧ u.droprate = 0 ∧ u.layer_drop = 0) ∧
    ((evalStack.forward demoFdrop demoX [] []).output
       = (evalStack.forward junkFdrop demoX [3] [7]).output ∧
     (evalStack.forward demoFdrop demoX [] []).stack
       = (evalStack.forward junkFdrop demoX [3] [7]).stack ∧
     (evalStack.forward demoFdrop demoX [] []).tg = [] ∧
     (evalStack.forward demoFdrop demoX [] []).ug = []) :=
  ⟨by decide, claim_C5 evalStack (by decide) demoFdrop junkFdrop demoX [] [] [3] [7]⟩

/-- Claim C6: for every Stack, wherever the projection output returned
by `forward` has an entry, the input has one too, and the first
`emb_dim` features of the output entry equal the input entry (the
projection accumulator is seeded with `x` and each layer only appends
on the feature axis). -/
theorem claim_C6 {σ : Type} (m : LDRNN σ)
    (fdrop : ℚ → Tensor → RNG → Tensor × RNG) (x : Tensor) (tg ug : RNG)
    (hw : featWidth m.emb_dim x) :
    ∀ t b v, ent (m.forward fdrop x tg ug).output t b = some v →
      ent x t b = some (v.take m.emb_dim) := by
  intro t b v hv
  have hext : extendsInput x (m.forward fdrop x tg ug).output := by
    show extendsInput x (runLayers fdrop m.layer_list x x tg ug).output
    exact runLayers_extends fdrop x m.layer_list x x tg ug (extendsInput_refl x)
  obtain ⟨xv, rest, hx, rfl⟩ := hext t b v hv
  have hrow : ∃ row, x[t]? = some row ∧ row[b]? = some xv := by
    unfold ent at hx
    cases hr : x[t]? with
    | none => rw [hr] at hx; exact absurd hx (by simp)
    | some row =>
      rw [hr] at hx
      simp only [Option.some_bind] at hx
      exact ⟨row, rfl, hx⟩
  obtain ⟨row, hr, hb⟩ := hrow
  have hlen : xv.length = m.emb_dim :=
    hw row (List.getElem?_mem hr) xv (List.getElem?_mem hb)
  rw [← hlen, List.take_left]
  exact hx

/-- Witness for C6 on a concrete evaluation-mode stack and input. -/
theorem claim_C6_witness :
    featWidth evalStack.emb_dim demoX ∧
    (∀ t b v, ent (evalStack.forward demoFdrop demoX [] []).output t b = some v →
       ent demoX t b = some (v.take evalStack.emb_dim)) :=
  ⟨by decide, claim_C6 evalStack demoFdrop demoX [] [] (by decide)⟩

/-- Claim C7: constructing a Layer Unit succeeds exactly when the
cell-variant name is a key of `rnnunit_map` (`rnn`, `lstm`, `gru`);
any other name fails the construction-time lookup, before any forward
call; and likewise for a Stack with at least one layer. -/
theorem claim_C7 :
    (∀ (σ : Type) (mkCell : RnnKind → ℕ → ℕ → Cell σ) (input incr : ℕ)
       (dr ld : ℚ) (unit : String),
       (BasicUnit.init unit mkCell input incr dr ld).isSome
         = (rnnunit_map unit).isSome) ∧
    (rnnunit_map ("rnn")).isSome = true ∧
    (rnnunit_map ("lstm")).isSome = true ∧
    (rnnunit_map ("gru")).isSome = true ∧
    (∀ unit : String, unit ≠ ("rnn") → unit ≠ ("lstm") → unit ≠ ("gru") →
       rnnunit_map unit = none) ∧
    (∀ (σ : Type) (L : ℕ), 0 < L →
       ∀ (mkCell : RnnKind → ℕ → ℕ → Cell σ) (E H : ℕ) (dr ld : ℚ) (unit : String),
       (LDRNN.init L unit mkCell E H dr ld).isSome = (rnnunit_map unit).isSome) := by
  refine ⟨?_, by decide, by decide, by decide, ?_, ?_⟩
  · intro σ mkCell input incr dr ld unit
    cases hk : rnnunit_map unit with
    | none => rw [basicUnit_init_eq_none mkCell input incr dr ld hk]; rfl
    | some k => rw [basicUnit_init_eq_some mkCell input incr dr ld hk]; rfl
  · intro unit h1 h2 h3
    unfold rnnunit_map
    rw [if_neg h1, if_neg h2, if_neg h3]
  · intro σ L hL mkCell E H dr ld unit
    cases hk : rnnunit_map unit with
    | none => rw [ldrnn_init_eq_none L mkCell E H dr ld hk hL]; rfl
    | some k => rw [ldrnn_init_eq_some L mkCell E H dr ld hk]; rfl

/-- Witness for C7: the invalid name `elman` fails both constructors,
the valid name `lstm` succeeds. -/
theorem claim_C7_witness :
    (BasicUnit.init ("elman") exCellU 4 3 (0 : ℚ) 0).isSome
      = (rnnunit_map ("elman")).isSome ∧
    rnnunit_map ("elman") = none ∧
    (LDRNN.init 2 ("elman") exCellU 4 3 (0 : ℚ) 0).isSome
      = (rnnunit_map ("elman")).isSome ∧
    (BasicUnit.init ("lstm") exCellU 4 3 (0 : ℚ) 0).isSome
      = (rnnunit_map ("lstm")).isSome :=
  ⟨claim_C7.1 Unit exCellU 4 3 0 0 ("elman"),
   claim_C7.2.2.2.2.1 ("elman") (by decide) (by decide) (by decide),
   claim_C7.2.2.2.2.2 Unit 2 (by decide) exCellU 4 3 0 0 ("elman"),
   claim_C7.1 Unit exCellU 4 3 0 0 ("lstm")⟩

/-- Counterexample to C8 as stated: the mapping returned by `to_params`
is not exactly the six claimed fields — it also contains the constant
architecture tag `rnn_type = "LDRNN"`, which is none of the six. -/
theorem claim_C8_counterexample :
    LDRNN.init 1 ("rnn") exCellU 4 3 (1/2 : ℚ) 0 = some exStack1 ∧
    (LDRNN.to_params exStack1).map (fun ps => ps.map Prod.fst)
      = some ["rnn_type", "unit_type", "layer_num", "emb_dim", "hid_dim",
              "droprate", "after_pruned"] ∧
    ("rnn_type") ∉ ["unit_type", "layer_num", "emb_dim", "hid_dim",
                    "droprate", "after_pruned"] :=
  ⟨rfl, rfl, by decide⟩

/-- Claim C8 as amended: for every constructed Stack with at least one
layer, `to_params` returns the flat mapping consisting of the constant
architecture tag `rnn_type = "LDRNN"` plus exactly the six claimed
fields — the cell variant tag, the layer count, the embedding width
(layer 0's input width), the growth width, the feature dropout rate,
and the (constant-false) pruned flag, taken from layer 0's settings. -/
theorem claim_C8_amended_thm {σ : Type} (L : ℕ) (unit : String)
    (mkCell : RnnKind → ℕ → ℕ → Cell σ) (E H : ℕ) (dr ld : ℚ) (m : LDRNN σ)
    (hL : 0 < L) (hm : LDRNN.init L unit mkCell E H dr ld = some m) :
    m.to_params = some [("rnn_type", PVal.s ("LDRNN")),
      ("unit_type", PVal.s unit),
      ("layer_num", PVal.n L),
      ("emb_dim", PVal.n E),
      ("hid_dim", PVal.n H),
      ("droprate", PVal.q dr),
      ("after_pruned", PVal.b false)] := by
  cases hk : rnnunit_map unit with
  | none =>
    rw [ldrnn_init_eq_none L mkCell E H dr ld hk hL] at hm
    exact absurd hm (by simp)
  | some k =>
    rw [ldrnn_init_eq_some L mkCell E H dr ld hk] at hm
    have h2 := Option.some.inj hm
    subst h2
    rcases L with _ | n
    · exact absurd hL (by simp)
    · unfold LDRNN.to_params LDRNN.layer
      simp [builtLayers, builtUnit, List.range_succ_eq_map]

/-- Witness for the amended C8 on a concrete one-layer stack. -/
theorem claim_C8_witness :
    (0 < 1 ∧ LDRNN.init 1 ("rnn") exCellU 4 3 (1/2 : ℚ) 0 = some exStack1) ∧
    exStack1.to_params = some [("rnn_type", PVal.s ("LDRNN")),
      ("unit_type", PVal.s ("rnn")),
      ("layer_num", PVal.n 1),
      ("emb_dim", PVal.n 4),
      ("hid_dim", PVal.n 3),
      ("droprate", PVal.q (1/2)),
      ("after_pruned", PVal.b false)] :=
  ⟨⟨Nat.one_pos, rfl⟩,
   claim_C8_amended_thm 1 ("rnn") exCellU 4 3 (1/2) 0 exStack1 Nat.one_pos rfl⟩

/-- Claim C9: a Layer Unit's forward call replaces exactly the stored
recurrent state — with the cell's new state passed through the
history-stripping `repackage_hidden` — and leaves every other attribute
unchanged (the structure-update equality); the `random.uniform` draw is
consumed only in training mode. -/
theorem claim_C9 {σ : Type} (u : BasicUnit σ)
    (fdrop : ℚ → Tensor → RNG → Tensor × RNG) (x p_out : Tensor) (tg ug : RNG) :
    (u.forward fdrop x p_out tg ug).unit
      = { u with hidden_state :=
            (some (repackage_hidden (u.cell (dropInput u fdrop x tg).1 u.hidden_state).2)) } ∧
    (u.training = false → (u.forward fdrop x p_out tg ug).tg = tg ∧
       (u.forward fdrop x p_out tg ug).ug = ug) ∧
    (u.training = true → (u.forward fdrop x p_out tg ug).ug = ug.tail) := by
  refine ⟨forward_unit_eq u fdrop x p_out tg ug, fun ht => ⟨?_, ?_⟩, fun ht => ?_⟩
  · rw [forward_tg_eq]
    unfold dropInput
    simp [ht]
  · rw [forward_ug_eq, ht]
    simp
  · rw [forward_ug_eq, ht]
    simp

/-- Witness for C9 on a concrete training-mode unit. -/
theorem claim_C9_witness :
    (exU2.forward demoFdrop demoX demoX [] [1/2]).unit
      = { exU2 with hidden_state :=
            (some (repackage_hidden (exU2.cell (dropInput exU2 demoFdrop demoX []).1 exU2.hidden_state).2)) } ∧
    (exU2.training = false → (exU2.forward demoFdrop demoX demoX [] [1/2]).tg = [] ∧
       (exU2.forward demoFdrop demoX demoX [] [1/2]).ug = [1/2]) ∧
    (exU2.training = true → (exU2.forward demoFdrop demoX demoX [] [1/2]).ug = List.tail [1/2]) :=
  claim_C9 exU2 demoFdrop demoX demoX [] [1/2]

/-- Claim C10: a Stack constructed with layer count 0 stores the
none-sentinel as its layer container, so `to_params` fails rather than
returning a summary; and the `after_pruned` flag is the constant
`false` in every mapping `to_params` does return. -/
theorem claim_C10 {σ : Type} (unit : String) (mkCell : RnnKind → ℕ → ℕ → Cell σ)
    (E H : ℕ) (dr ld : ℚ) (m : LDRNN σ)
    (hm : LDRNN.init 0 unit mkCell E H dr ld = some m) :
    m.layer = none ∧ m.to_params = none ∧
    (∀ (m' : LDRNN σ) ps, m'.to_params = some ps →
       ("after_pruned", PVal.b false) ∈ ps) := by
  have h2 : (zeroStack unit E : LDRNN σ) = m := Option.some.inj hm
  refine ⟨by rw [← h2]; rfl, by rw [← h2]; rfl, ?_⟩
  intro m' ps hps
  unfold LDRNN.to_params at hps
  cases hl : m'.layer with
  | none =>
    rw [hl] at hps
    exact Option.noConfusion hps
  | some l =>
    rw [hl] at hps
    cases l with
    | nil => exact Option.noConfusion hps
    | cons u0 rest =>
      simp at hps
      rw [← hps]
      simp

/-- Witness for C10 on a concrete zero-layer stack. -/
theorem claim_C10_witness :
    LDRNN.init 0 ("rnn") exCellU 4 3 (0 : ℚ) 0 = some exStack0 ∧
    (exStack0.layer = none ∧ exStack0.to_params = none ∧
     (∀ (m' : LDRNN Unit) ps, m'.to_params = some ps →
        ("after_pruned", PVal.b false) ∈ ps)) :=
  ⟨rfl, claim_C10 ("rnn") exCellU 4 3 0 0 exStack0 rfl⟩

end LDNet
